import Mathlib

/-!
Verification of the intent-classification component in
`supervisor/intent_identifier.py` (class `IntentIdentifier`).

Shallow embedding notes:

* JSON values are modelled by the inductive type `Json`.  Python numbers
  (int and float alike) are modelled as exact rationals `Rat`; the source
  only ever uses the decimal literals 0.2, 0.3, 0.5, 0.7 and products
  `best_score * 0.2`, so no floating-point rounding behaviour is relevant
  to the claims.  Python `None` and JSON `null` are both `Json.null`.
* Python dicts are association lists in insertion order; `setKey` models
  `d[k] = v` (update in place, or append at the end when the key is new)
  and `objGet` models `d.get(k)` (returning `None`, i.e. `Json.null`,
  when the key is absent).
* `json.loads` is modelled by the executable recursive-descent parser
  `jsonLoads` (standard JSON grammar: objects, arrays, strings with
  escapes, numbers, true/false/null; duplicate object keys keep the last
  value, as CPython does).  The non-standard `NaN`/`Infinity` extensions
  of CPython are not representable in `Rat` and are rejected; such
  responses reach the keyword fallback either way, since a parsed
  non-dict value makes `intent_result.get` raise `AttributeError`.
* The only free input of the pipeline besides the query is what the LLM
  call does; it is abstracted by `LLMBehaviour`: the call (or anything
  before the response text is obtained, including prompt construction)
  raises, or it yields a response text.  Theorems quantify over all
  behaviours.
* Python exceptions are modelled by `Except PyExn`: the body of the
  `try` block is `identifyIntentTry`, and `identify_intent` is the
  `try/except` wrapper (both `except` arms call `_fallback_intent`).
  Note that `agent_id not in AGENT_DESCRIPTIONS` raises `TypeError` when
  the value is unhashable (a JSON array or object), which the broad
  `except Exception` arm turns into a fallback result.
* Python `str.strip` / `str.lower` / substring tests are modelled over
  `List Char` (`pyStrip`, `toLowerL`, `isInfixB`); all registry keywords
  are ASCII, matching Python semantics on the relevant inputs.
-/

/-- JSON values (also used for the Python dict that `identify_intent`
returns). -/
inductive Json where
  | null
  | bool (b : Bool)
  | num (v : Rat)
  | str (text : String)
  | arr (items : List Json)
  | obj (entries : List (String × Json))

/-- One value of the `AGENT_DESCRIPTIONS` registry dict: the per-agent
record with name, description, keywords and example intents. -/
structure AgentInfo where
  name : String
  description : String
  keywords : List String
  example_intents : List String

/-- The static agent registry `AGENT_DESCRIPTIONS` of
`intent_identifier.py`, transcribed verbatim (insertion order
preserved). -/
def AGENT_DESCRIPTIONS : List (String × AgentInfo) := [
  ("adaptive_quiz_master_agent",
   { name := "Adaptive Quiz Master Agent",
     description := "Generates quizzes tailored to a learner\x27s performance. Tracks past attempts and adapts difficulty/content for effective learning.",
     keywords := ["quiz", "test", "questions", "assessment", "adaptive", "practice", "mcq", "true/false"],
     example_intents := ["generate a quiz on Python", "create adaptive quiz for beginners", "make a test with 10 questions", "quiz me on linear algebra"] }),
  ("assignment_coach_agent",
   { name := "Assignment Coach Agent",
     description := "Provides assignment understanding, task breakdown, resource suggestions, and progress guidance to students.",
     keywords := ["assignment", "homework", "task", "breakdown", "guidance", "help with assignment", "project help"],
     example_intents := ["help me with my assignment", "break down this task", "guide me through my homework", "assignment guidance needed"] }),
  ("plagiarism_prevention_agent",
   { name := "Plagiarism Prevention Agent",
     description := "Analyzes submitted text for plagiarism and rephrases content to improve originality while preserving meaning.",
     keywords := ["plagiarism", "check originality", "rephrase", "paraphrase", "originality", "copied content", "authenticity"],
     example_intents := ["check my text for plagiarism", "rephrase this paragraph", "improve originality of my writing", "is this plagiarized"] }),
  ("research_scout_agent",
   { name := "Research Scout Agent",
     description := "Helps students quickly find and summarize recent research papers, articles, or case studies related to any topic.",
     keywords := ["research", "papers", "articles", "case studies", "literature review", "find papers", "academic sources"],
     example_intents := ["find research papers on AI", "search for recent articles about machine learning", "get case studies on agile methodology", "literature review help"] }),
  ("concept_reinforcement_agent",
   { name := "Concept Reinforcement Agent",
     description := "Generates short, focused learning activities for topics where learner\x27s performance is weak or additional practice is needed.",
     keywords := ["practice", "weak topics", "reinforcement", "struggling with", "need more practice", "flashcards", "review"],
     example_intents := ["I need practice on data structures", "help me reinforce calculus concepts", "struggling with recursion", "create flashcards for biology"] }),
  ("citation_manager_agent",
   { name := "Citation Manager Agent",
     description := "Automatically generates, validates, and manages academic citations in various formats (APA, MLA, Chicago, etc.).",
     keywords := ["citation", "reference", "bibliography", "APA", "MLA", "Chicago", "cite", "format reference"],
     example_intents := ["create citation in APA format", "format this reference", "generate bibliography", "cite this paper in MLA"] }),
  ("peer_collaboration_agent",
   { name := "Peer Collaboration Agent",
     description := "Monitors team discussions and analyzes collaboration patterns, participation balance, and communication quality.",
     keywords := ["team", "collaboration", "group work", "teamwork", "discussion analysis", "team feedback", "coordination"],
     example_intents := ["analyze our team discussion", "feedback on group collaboration", "who\x27s not contributing", "improve team communication"] }),
  ("adaptive_flashcard_agent",
   { name := "Adaptive Flashcard Agent",
     description := "Dynamically generates and personalizes flashcards based on student\x27s learning progress and performance.",
     keywords := ["flashcard", "memorize", "recall", "study cards", "memory", "retention"],
     example_intents := ["create flashcards for chemistry", "generate study cards", "help me memorize vocabulary", "adaptive flashcards for history"] }),
  ("presentation_feedback_agent",
   { name := "Presentation Feedback Agent",
     description := "Analyzes presentation transcripts and provides feedback on confidence, material quality, pacing, and delivery.",
     keywords := ["presentation", "feedback", "speech", "delivery", "public speaking", "transcript analysis", "presenting"],
     example_intents := ["analyze my presentation", "feedback on my speech", "review my presentation transcript", "improve my delivery"] }),
  ("lecture_insight_agent",
   { name := "Lecture Insight Agent",
     description := "Analyzes lecture audio to extract key insights, generate summaries, and suggest additional learning resources.",
     keywords := ["lecture", "audio", "recording", "notes", "summarize lecture", "audio analysis", "class recording"],
     example_intents := ["analyze this lecture recording", "summarize my class audio", "extract key points from lecture", "generate notes from recording"] }),
  ("question_anticipator_agent",
   { name := "Question Anticipator Agent",
     description := "Predicts possible exam questions based on syllabus, past papers, and question patterns.",
     keywords := ["exam questions", "predict questions", "syllabus analysis", "past papers", "exam preparation", "likely questions"],
     example_intents := ["predict exam questions", "what questions might come", "analyze past papers", "anticipate exam topics"] }),
  ("daily_revision_proctor_agent",
   { name := "Daily Revision Proctor Agent",
     description := "Monitors daily learning activities, generates personalized reminders, and provides adaptive study recommendations.",
     keywords := ["revision", "daily study", "reminders", "study routine", "progress tracking", "study habits"],
     example_intents := ["track my daily revision", "set study reminders", "monitor my progress", "help with study routine"] }),
  ("study_scheduler_agent",
   { name := "Study Scheduler Agent",
     description := "Creates and optimizes personalized study timetables based on subjects, deadlines, and performance.",
     keywords := ["schedule", "timetable", "study plan", "time management", "organize study", "calendar"],
     example_intents := ["create study schedule", "make a timetable", "plan my study time", "organize my study sessions"] }),
  ("exam_readiness_agent",
   { name := "Exam Readiness Agent",
     description := "Generates comprehensive assessments including MCQs, short questions, and long questions for exam preparation.",
     keywords := ["exam", "assessment", "readiness", "mock test", "exam prep", "practice exam"],
     example_intents := ["prepare for my exam", "create mock test", "assess my readiness", "generate practice exam"] }),
  ("gemini-wrapper",
   { name := "Gemini Wrapper (General LLM)",
     description := "General-purpose text generation and conversation. Use when no specific agent matches or for general queries.",
     keywords := ["general", "chat", "explain", "tell me about", "what is", "how does", "conversation"],
     example_intents := ["explain quantum physics", "tell me about history", "general question", "chat about something"] })
]

/-- The key set of the registry dict, in iteration order. -/
def registryKeys : List String := AGENT_DESCRIPTIONS.map Prod.fst

/-- Characters stripped by Python `str.strip()` (ASCII whitespace;
queries and responses in this development are ASCII). -/
def pyWs (c : Char) : Bool :=
  c = ' ' || c = '\t' || c = '\n' || c = '\r' || c = '\x0b' || c = '\x0c'

/-- Python `str.strip()` over a character list. -/
def pyStrip (l : List Char) : List Char :=
  ((l.dropWhile pyWs).reverse.dropWhile pyWs).reverse

/-- Python `str.lower()` on one ASCII character. -/
def toLowerChar (c : Char) : Char :=
  if 'A' ≤ c && c ≤ 'Z' then Char.ofNat (c.toNat + 32) else c

/-- Python `str.lower()` over a character list. -/
def toLowerL (l : List Char) : List Char := l.map toLowerChar

/-- Python substring test `pat in s` over character lists. -/
def isInfixB (pat : List Char) : List Char → Bool
  | [] => pat.isEmpty
  | c :: rest => pat.isPrefixOf (c :: rest) || isInfixB pat rest

/-- Python dict assignment `d[k] = v`: replace the value of an existing
key in place, otherwise append the new key at the end (insertion
order). -/
def setKey (kvs : List (String × Json)) (k : String) (v : Json) : List (String × Json) :=
  match kvs with
  | [] => [(k, v)]
  | (k1, v1) :: rest => if k1 == k then (k1, v) :: rest else (k1, v1) :: setKey rest k v

/-- Python dict read `d.get(k)`: the stored value, or `None`
(`Json.null`) when the key is absent. -/
def objGet (kvs : List (String × Json)) (k : String) : Json :=
  match kvs with
  | [] => .null
  | (k1, v1) :: rest => if k1 == k then v1 else objGet rest k

/-- Field access on a result value (`Json.null` on a non-object, used
only in theorem statements). -/
def getField : Json → String → Json
  | .obj kvs, k => objGet kvs k
  | _, _ => .null

/-- JSON whitespace (RFC 8259, what `json.loads` skips between
tokens). -/
def jsonWs (c : Char) : Bool := c = ' ' || c = '\t' || c = '\n' || c = '\r'

/-- Skip JSON whitespace. -/
def skipWs (l : List Char) : List Char := l.dropWhile jsonWs

/-- Value of one hexadecimal digit. -/
def hexVal (c : Char) : Option Nat :=
  if c.isDigit then some (c.toNat - 48)
  else if 'a' ≤ c && c ≤ 'f' then some (c.toNat - 87)
  else if 'A' ≤ c && c ≤ 'F' then some (c.toNat - 55)
  else none

/-- Single-character JSON string escapes. -/
def escChar : Char → Option Char
  | 'n' => some '\n'
  | 't' => some '\t'
  | 'r' => some '\r'
  | 'b' => some (Char.ofNat 8)
  | 'f' => some (Char.ofNat 12)
  | '"' => some '"'
  | '/' => some '/'
  | '\\' => some '\\'
  | _ => none

/-- Parse the body of a JSON string (after the opening quote), returning
the decoded characters and the rest of the input.  Control characters
are rejected (`json.loads` default strict mode); `\uXXXX` decodes to the
scalar value (surrogate pairs are not combined, which no claim
exercises). -/
def parseStr : Nat → List Char → Option (List Char × List Char)
  | 0, _ => none
  | _ + 1, [] => none
  | fuel + 1, c :: rest =>
    if c = '"' then some ([], rest)
    else if c = '\\' then
      match rest with
      | [] => none
      | e :: rest2 =>
        if e = 'u' then
          match rest2 with
          | a :: b :: c2 :: d :: rest3 =>
            match hexVal a, hexVal b, hexVal c2, hexVal d with
            | some ha, some hb, some hc, some hd =>
              (parseStr fuel rest3).map
                (fun p => (Char.ofNat (((ha * 16 + hb) * 16 + hc) * 16 + hd) :: p.1, p.2))
            | _, _, _, _ => none
          | _ => none
        else
          match escChar e with
          | some ec => (parseStr fuel rest2).map (fun p => (ec :: p.1, p.2))
          | none => none
    else if c.toNat < 32 then none
    else (parseStr fuel rest).map (fun p => (c :: p.1, p.2))

/-- Decimal digits to a natural number. -/
def digitsToNat (l : List Char) : Nat := l.foldl (fun a c => a * 10 + (c.toNat - 48)) 0

/-- Parse a JSON number per the RFC 8259 grammar
(`-? int frac? exp?`), as an exact rational. -/
def parseNum (l : List Char) : Option (Rat × List Char) :=
  let (neg, l1) := match l with | '-' :: r => (true, r) | _ => (false, l)
  let ip := l1.takeWhile Char.isDigit
  let l2 := l1.dropWhile Char.isDigit
  match ip with
  | [] => none
  | '0' :: _ :: _ => none
  | _ =>
    let fracPart : Option (List Char × List Char) :=
      match l2 with
      | '.' :: r =>
        match r.takeWhile Char.isDigit with
        | [] => none
        | d => some (d, r.dropWhile Char.isDigit)
      | _ => some ([], l2)
    match fracPart with
    | none => none
    | some (fr, l3) =>
      let expPart : Option (Option (Bool × List Char) × List Char) :=
        match l3 with
        | 'e' :: r | 'E' :: r =>
          let (es, r1) := match r with
            | '+' :: r2 => (false, r2)
            | '-' :: r2 => (true, r2)
            | _ => (false, r)
          match r1.takeWhile Char.isDigit with
          | [] => none
          | d => some (some (es, d), r1.dropWhile Char.isDigit)
        | _ => some (none, l3)
      match expPart with
      | none => none
      | some (ex, l4) =>
        let base : Rat :=
          if fr.isEmpty then (digitsToNat ip : Rat)
          else (digitsToNat ip : Rat) + (digitsToNat fr : Rat) / ((10 : Rat) ^ fr.length)
        let scaled : Rat :=
          match ex with
          | none => base
          | some (es, d) =>
            if es then base / ((10 : Rat) ^ digitsToNat d)
            else base * ((10 : Rat) ^ digitsToNat d)
        some ((if neg then -scaled else scaled), l4)

mutual

/-- Recursive-descent JSON value parser (model of the grammar consumed
by `json.loads`).  The input is assumed to start at a non-whitespace
position; returns the value and the unconsumed rest. -/
def parseVal : Nat → List Char → Option (Json × List Char)
  | 0, _ => none
  | fuel + 1, l =>
    match l with
    | [] => none
    | '\x7b' :: rest =>
      match skipWs rest with
      | '\x7d' :: r2 => some (.obj [], r2)
      | r => parseMembers fuel r []
    | '[' :: rest =>
      match skipWs rest with
      | ']' :: r2 => some (.arr [], r2)
      | r => parseElems fuel r []
    | '"' :: rest =>
      (parseStr (rest.length + 1) rest).map (fun p => (.str (String.mk p.1), p.2))
    | 't' :: rest => if ("rue".data).isPrefixOf rest then some (.bool true, rest.drop 3) else none
    | 'f' :: rest => if ("alse".data).isPrefixOf rest then some (.bool false, rest.drop 4) else none
    | 'n' :: rest => if ("ull".data).isPrefixOf rest then some (.null, rest.drop 3) else none
    | c :: _ =>
      if c = '-' || c.isDigit then (parseNum l).map (fun p => (.num p.1, p.2))
      else none

/-- Members of a JSON object (after `{`, first key expected at the head
of the input).  Duplicate keys keep the last value, as CPython dicts
built by `json.loads` do. -/
def parseMembers : Nat → List Char → List (String × Json) → Option (Json × List Char)
  | 0, _, _ => none
  | fuel + 1, l, acc =>
    match l with
    | '"' :: rest =>
      match parseStr (rest.length + 1) rest with
      | some (k, r1) =>
        match skipWs r1 with
        | ':' :: r2 =>
          match parseVal fuel (skipWs r2) with
          | some (v, r3) =>
            match skipWs r3 with
            | ',' :: r4 => parseMembers fuel (skipWs r4) (setKey acc (String.mk k) v)
            | '\x7d' :: r4 => some (.obj (setKey acc (String.mk k) v), r4)
            | _ => none
          | none => none
        | _ => none
      | none => none
    | _ => none

/-- Elements of a JSON array (after `[`, first element expected at the
head of the input). -/
def parseElems : Nat → List Char → List Json → Option (Json × List Char)
  | 0, _, _ => none
  | fuel + 1, l, acc =>
    match parseVal fuel l with
    | some (v, r1) =>
      match skipWs r1 with
      | ',' :: r2 => parseElems fuel (skipWs r2) (acc ++ [v])
      | ']' :: r2 => some (.arr (acc ++ [v]), r2)
      | _ => none
    | none => none

end

/-- Model of `json.loads`: parse one JSON value and require only
whitespace to remain, otherwise fail (CPython raises
`json.JSONDecodeError` in exactly the `none` cases). -/
def jsonLoads (l : List Char) : Option Json :=
  match parseVal (2 * l.length + 2) (skipWs l) with
  | some (v, rest) => if (skipWs rest).isEmpty then some v else none
  | none => none

/-- Lines 264-271 of `identify_intent`: strip the response text, remove
a leading markdown fence `\x60\x60\x60json` (7 characters) and a
trailing `\x60\x60\x60` (3 characters) when present, and strip again. -/
def cleanResponse (l : List Char) : List Char :=
  let t1 := pyStrip l
  let t2 := if ("\x60\x60\x60json".data).isPrefixOf t1 then t1.drop 7 else t1
  let t3 := if ("\x60\x60\x60".data).isSuffixOf t2 then t2.take (t2.length - 3) else t2
  pyStrip t3

/-- Abstraction of `self.model.generate_content(prompt)` followed by
`response.text`: either something raises before a response text is
obtained, or a response text is produced. -/
inductive LLMBehaviour where
  | raises
  | returns (text : String)

/-- The Python exception kinds that can escape the body of the `try`
block of `identify_intent`. -/
inductive PyExn where
  | jsonDecodeError
  | typeError
  | attributeError
  | other

/-- Whether a JSON value is hashable as a Python object (arrays map to
`list`, objects to `dict`, both unhashable); `agent_id not in
AGENT_DESCRIPTIONS` raises `TypeError` on an unhashable value. -/
def jsonHashable : Json → Bool
  | .arr _ => false
  | .obj _ => false
  | _ => true

/-- Python `agent_id in AGENT_DESCRIPTIONS` for a hashable value: dict
key membership, true exactly for strings equal to a registry key. -/
def registryMember : Json → Bool
  | .str s => registryKeys.contains s
  | _ => false

/-- Number of keywords of one agent that occur as substrings of the
(already lower-cased) query: `sum(1 for keyword in info['keywords'] if
keyword in query_lower)`. -/
def scoreAgent (ql : List Char) (info : AgentInfo) : Nat :=
  info.keywords.countP (fun kw => isInfixB kw.data ql)

/-- The `for agent_id, info in AGENT_DESCRIPTIONS.items()` loop of
`_fallback_intent`, carried accumulator `(best_match, best_score)`,
updated on strict improvement only. -/
def bestAux (ql : List Char) : List (String × AgentInfo) → Option String × Nat → Option String × Nat
  | [], acc => acc
  | p :: rest, acc =>
    bestAux ql rest (if scoreAgent ql p.2 > acc.2 then (some p.1, scoreAgent ql p.2) else acc)

/-- Python `min` on two rationals (returns the first argument on
ties). -/
def pyMin (a b : Rat) : Rat := if b < a then b else a

/-- The keyword-matched fallback result dict of `_fallback_intent`. -/
def matchedJson (agentId : String) (score : Nat) : Json :=
  .obj [("agent_id", .str agentId),
        ("confidence", .num (pyMin (7/10) ((score : Rat) * (2/10)))),
        ("reasoning", .str "Fallback keyword matching used"),
        ("is_ambiguous", .bool false),
        ("clarifying_questions", .arr []),
        ("extracted_params", .obj []),
        ("alternative_agents", .arr [])]

/-- The ultimate fallback result dict of `_fallback_intent`. -/
def genericJson : Json :=
  .obj [("agent_id", .str "gemini-wrapper"),
        ("confidence", .num (3/10)),
        ("reasoning", .str "No specific agent matched, using general LLM"),
        ("is_ambiguous", .bool false),
        ("clarifying_questions", .arr []),
        ("extracted_params", .obj []),
        ("alternative_agents", .arr [])]

/-- `IntentIdentifier._fallback_intent`: keyword matching over the
lower-cased query; `if best_match and best_score > 0` guards the
matched branch (`best_match` is truthy iff it is a non-empty
string). -/
def fallback_intent (user_query : String) : Json :=
  match bestAux (toLowerL user_query.data) AGENT_DESCRIPTIONS (none, 0) with
  | (some k, s) => if !k.isEmpty && decide (0 < s) then matchedJson k s else genericJson
  | (none, _) => genericJson

/-- Body of the `try` block of `identify_intent` (lines 257-285): clean
the response text, `json.loads` it, read `agent_id` via `.get`, test
registry membership, and correct an unknown id in place.  Each `error`
constructor marks the Python exception raised on that path:
`json.JSONDecodeError` for a failed parse, `AttributeError` for `.get`
on a parsed non-dict, `TypeError` for an unhashable `agent_id` in the
`not in` test, and any exception of the LLM call itself. -/
def identifyIntentTry (b : LLMBehaviour) : Except PyExn Json :=
  match b with
  | .raises => .error .other
  | .returns s =>
    match jsonLoads (cleanResponse s.data) with
    | none => .error .jsonDecodeError
    | some (.obj kvs) =>
      if jsonHashable (objGet kvs "agent_id") then
        if registryMember (objGet kvs "agent_id") then .ok (.obj kvs)
        else .ok (.obj (setKey (setKey kvs "agent_id" (.str "gemini-wrapper")) "confidence" (.num (5/10))))
      else .error .typeError
    | some _ => .error .attributeError

/-- `IntentIdentifier.identify_intent`: the `try` body with both
`except` arms (`json.JSONDecodeError` and the broad `Exception`)
returning `self._fallback_intent(user_query)`. -/
def identify_intent (q : String) (b : LLMBehaviour) : Json :=
  match identifyIntentTry b with
  | .ok r => r
  | .error _ => fallback_intent q

/-- Whether a JSON value is an object (a Python dict after
`json.loads`). -/
def isObjB : Json → Bool
  | .obj _ => true
  | _ => false

/-- The maximum keyword score over a list of agents (0 on the empty
list). -/
def maxScoreL (ql : List Char) (l : List (String × AgentInfo)) : Nat :=
  l.foldr (fun p m => max (scoreAgent ql p.2) m) 0

/-- Spec-side description of the fallback computation, following the
words of the specification: score each registry agent by the number of
its keywords occurring as literal substrings of the lower-cased query,
select the agent with the strictly highest score (the first agent in
registry iteration order wins ties, i.e. the first agent attaining the
maximum score), and return it with confidence `min(0.7, score * 0.2)`;
if the best score is 0, return the catch-all agent with confidence
0.3.  Proved equal to the implementation-side `fallback_intent`. -/
def specFallback (q : String) : Json :=
  if maxScoreL (toLowerL q.data) AGENT_DESCRIPTIONS = 0 then genericJson
  else
    match AGENT_DESCRIPTIONS.find?
        (fun p => decide (maxScoreL (toLowerL q.data) AGENT_DESCRIPTIONS ≤ scoreAgent (toLowerL q.data) p.2)) with
    | some p => matchedJson p.1 (maxScoreL (toLowerL q.data) AGENT_DESCRIPTIONS)
    | none => genericJson

/-- A response text wrapped in the markdown code fence of the spec
example: leading backtick-backtick-backtick-json, trailing three
backticks, each on its own line. -/
def wrapFence (t : List Char) : List Char :=
  "\x60\x60\x60json\n".data ++ (t ++ "\n\x60\x60\x60".data)

/-! ### Dict lemmas -/

lemma objGet_setKey_self (m : List (String × Json)) (k : String) (v : Json) :
    objGet (setKey m k v) k = v := by
  induction m with
  | nil => simp [setKey, objGet]
  | cons p rest ih =>
    obtain ⟨k1, v1⟩ := p
    by_cases h : k1 = k
    · simp [setKey, objGet, h]
    · simp [setKey, objGet, beq_eq_false_iff_ne.mpr h, ih]

lemma objGet_setKey_other (m : List (String × Json)) (k k2 : String) (v : Json)
    (hne : k ≠ k2) : objGet (setKey m k v) k2 = objGet m k2 := by
  induction m with
  | nil => simp [setKey, objGet, beq_eq_false_iff_ne.mpr hne]
  | cons p rest ih =>
    obtain ⟨k1, v1⟩ := p
    by_cases h : k1 = k
    · subst h
      simp [setKey, objGet, beq_eq_false_iff_ne.mpr hne]
    · by_cases h2 : k1 = k2
      · subst h2
        simp only [setKey, beq_eq_false_iff_ne.mpr h, Bool.false_eq_true, if_false]
        simp [objGet]
      · simp [setKey, objGet, beq_eq_false_iff_ne.mpr h, beq_eq_false_iff_ne.mpr h2, ih]

/-! ### Registry membership lemmas -/

lemma registryMember_hashable (j : Json) (h : registryMember j = true) :
    jsonHashable j = true := by
  cases j <;> simp_all [registryMember, jsonHashable]

lemma registryMember_str (j : Json) (h : registryMember j = true) :
    ∃ s, j = Json.str s ∧ s ∈ registryKeys := by
  cases j with
  | str s => exact ⟨s, rfl, by simpa [registryMember] using h⟩
  | null => simp [registryMember] at h
  | bool b => simp [registryMember] at h
  | num q => simp [registryMember] at h
  | arr a => simp [registryMember] at h
  | obj o => simp [registryMember] at h

/-! ### Shape of the fallback result -/

lemma fallback_intent_obj (q : String) : ∃ kvs, fallback_intent q = Json.obj kvs := by
  rcases hb : bestAux (toLowerL q.data) AGENT_DESCRIPTIONS (none, 0) with ⟨bm, s⟩
  unfold fallback_intent
  rw [hb]
  cases bm with
  | none => exact ⟨_, rfl⟩
  | some k =>
    cases hcond : (!k.isEmpty && decide (0 < s)) with
    | true => simp only [hcond, if_true]; exact ⟨_, rfl⟩
    | false => simp only [hcond, Bool.false_eq_true, if_false]; exact ⟨_, rfl⟩

/-! ### Case analysis of the pipeline -/

lemma identify_intent_cases (q : String) (b : LLMBehaviour) :
    identify_intent q b = fallback_intent q ∨
    ∃ s kvs, b = .returns s ∧ jsonLoads (cleanResponse s.data) = some (.obj kvs) ∧
      ((registryMember (objGet kvs "agent_id") = true ∧ identify_intent q b = .obj kvs) ∨
       (registryMember (objGet kvs "agent_id") = false ∧
        identify_intent q b =
          .obj (setKey (setKey kvs "agent_id" (.str "gemini-wrapper")) "confidence" (.num (5/10))))) := by
  cases b with
  | raises => left; rfl
  | returns s =>
    rcases hj : jsonLoads (cleanResponse s.data) with _ | v
    · left; simp [identify_intent, identifyIntentTry, hj]
    · cases v with
      | obj kvs =>
        by_cases hh : jsonHashable (objGet kvs "agent_id") = true
        · by_cases hr : registryMember (objGet kvs "agent_id") = true
          · exact .inr ⟨s, kvs, rfl, hj, .inl ⟨hr, by
              simp [identify_intent, identifyIntentTry, hj, hh, hr]⟩⟩
          · rw [Bool.not_eq_true] at hr
            exact .inr ⟨s, kvs, rfl, hj, .inr ⟨hr, by
              simp [identify_intent, identifyIntentTry, hj, hh, hr]⟩⟩
        · rw [Bool.not_eq_true] at hh
          left; simp [identify_intent, identifyIntentTry, hj, hh]
      | null => left; simp [identify_intent, identifyIntentTry, hj]
      | bool b2 => left; simp [identify_intent, identifyIntentTry, hj]
      | num q2 => left; simp [identify_intent, identifyIntentTry, hj]
      | str s2 => left; simp [identify_intent, identifyIntentTry, hj]
      | arr a2 => left; simp [identify_intent, identifyIntentTry, hj]

/-- C4: if the LLM response text (after fence stripping) parses as a
JSON object whose `agent_id` value is a key of the registry, then
`identify_intent` returns exactly that parsed object, with no field
added, removed, or changed. -/
theorem identify_intent_passthrough_valid (q s : String) (kvs : List (String × Json))
    (hparse : jsonLoads (cleanResponse s.data) = some (Json.obj kvs))
    (hknown : registryMember (objGet kvs "agent_id") = true) :
    identify_intent q (.returns s) = Json.obj kvs := by
  simp [identify_intent, identifyIntentTry, hparse, registryMember_hashable _ hknown, hknown]

/-- Witness for C4 at a concrete valid response. -/
theorem identify_intent_passthrough_valid_witness :
    identify_intent "hi" (.returns "\x7b\"agent_id\": \"citation_manager_agent\", \"confidence\": 1\x7d")
      = Json.obj [("agent_id", Json.str "citation_manager_agent"), ("confidence", Json.num 1)] :=
  identify_intent_passthrough_valid "hi" _ _ rfl rfl

/-- C6: if the LLM response text (after fence stripping) is not
parsable as JSON, `identify_intent` returns exactly the fallback
computation applied to the raw query — a pure function of the query and
registry, independent of the malformed response text, with no retry of
the LLM call. -/
theorem identify_intent_parse_failure_fallback (q s : String)
    (h : jsonLoads (cleanResponse s.data) = none) :
    identify_intent q (.returns s) = fallback_intent q := by
  simp [identify_intent, identifyIntentTry, h]

/-- Witness for C6 at a concrete unparsable response. -/
theorem identify_intent_parse_failure_fallback_witness :
    identify_intent "hi" (.returns "not json") = fallback_intent "hi" :=
  identify_intent_parse_failure_fallback "hi" "not json" rfl

/-- C10: if the LLM response parses as valid JSON whose top-level value
is not an object, `identify_intent` returns exactly the keyword-fallback
computation on the query (the `.get` call on the non-dict raises
`AttributeError`, caught by the broad exception handler), never the
parsed value itself. -/
theorem identify_intent_nonobject_fallback (q s : String) (v : Json)
    (hparse : jsonLoads (cleanResponse s.data) = some v) (hobj : isObjB v = false) :
    identify_intent q (.returns s) = fallback_intent q := by
  cases v <;> simp_all [identify_intent, identifyIntentTry, isObjB]

/-- Witness for C10 at a concrete array response. -/
theorem identify_intent_nonobject_fallback_witness :
    identify_intent "hi" (.returns "[1, 2]") = fallback_intent "hi" :=
  identify_intent_nonobject_fallback "hi" "[1, 2]" (Json.arr [.num 1, .num 2]) rfl rfl

/-- C9: if the LLM response parses as a JSON object with no `agent_id`
key (or one mapped to `null` — both read back as `None` via `.get`),
`identify_intent` treats it like an unknown agent id: it returns the
object with `agent_id` set to "gemini-wrapper" and `confidence` 0.5,
every other field preserved, and the keyword fallback is not
invoked. -/
theorem identify_intent_missing_agent_corrected (q s : String) (kvs : List (String × Json))
    (hparse : jsonLoads (cleanResponse s.data) = some (Json.obj kvs))
    (hagent : objGet kvs "agent_id" = Json.null) :
    identify_intent q (.returns s) =
      Json.obj (setKey (setKey kvs "agent_id" (.str "gemini-wrapper")) "confidence" (.num (5/10))) := by
  simp [identify_intent, identifyIntentTry, hparse, hagent, jsonHashable, registryMember]

/-- Witness for C9 at a concrete response without an `agent_id` key. -/
theorem identify_intent_missing_agent_corrected_witness :
    identify_intent "hi" (.returns "\x7b\"reasoning\": \"r\"\x7d")
      = Json.obj [("reasoning", Json.str "r"), ("agent_id", Json.str "gemini-wrapper"),
                  ("confidence", Json.num (5/10))] :=
  identify_intent_missing_agent_corrected "hi" _ [("reasoning", Json.str "r")] rfl rfl

/-! ### Characterization of the fallback selection loop -/

lemma maxScoreL_cons (ql : List Char) (p : String × AgentInfo) (l : List (String × AgentInfo)) :
    maxScoreL ql (p :: l) = max (scoreAgent ql p.2) (maxScoreL ql l) := rfl

lemma bestAux_snd (ql : List Char) (l : List (String × AgentInfo)) :
    ∀ b s, (bestAux ql l (b, s)).2 = max s (maxScoreL ql l) := by
  induction l with
  | nil => intro b s; simp [bestAux, maxScoreL]
  | cons p rest ih =>
    intro b s
    rw [maxScoreL_cons]
    simp only [bestAux]
    by_cases h : scoreAgent ql p.2 > s
    · rw [if_pos h, ih]
      omega
    · rw [if_neg h, ih]
      omega

lemma maxScoreL_attained (ql : List Char) :
    ∀ l : List (String × AgentInfo), 0 < maxScoreL ql l →
      ∃ p ∈ l, maxScoreL ql l ≤ scoreAgent ql p.2 := by
  intro l
  induction l with
  | nil => intro h; simp [maxScoreL] at h
  | cons p rest ih =>
    intro h
    rw [maxScoreL_cons] at h ⊢
    rcases Nat.le_total (maxScoreL ql rest) (scoreAgent ql p.2) with hle | hle
    · exact ⟨p, List.mem_cons_self p rest, by omega⟩
    · have h2 : 0 < maxScoreL ql rest := by omega
      obtain ⟨p2, hm, hs⟩ := ih h2
      exact ⟨p2, List.mem_cons_of_mem _ hm, by omega⟩

lemma bestAux_fst (ql : List Char) (l : List (String × AgentInfo)) :
    ∀ b s, (bestAux ql l (b, s)).1 =
      if maxScoreL ql l ≤ s then b
      else
        match l.find? (fun p => decide (maxScoreL ql l ≤ scoreAgent ql p.2)) with
        | some p => some p.1
        | none => b := by
  induction l with
  | nil =>
    intro b s
    simp [bestAux, maxScoreL]
  | cons p rest ih =>
    intro b s
    simp only [bestAux]
    by_cases h : scoreAgent ql p.2 > s
    · rw [if_pos h, ih]
      by_cases h2 : maxScoreL ql rest ≤ scoreAgent ql p.2
      · have hM : maxScoreL ql (p :: rest) = scoreAgent ql p.2 := by
          rw [maxScoreL_cons]; omega
        have hMs : ¬ maxScoreL ql (p :: rest) ≤ s := by omega
        rw [if_pos h2, if_neg hMs, hM]
        rw [List.find?_cons_of_pos _ (by simp)]
      · have hM : maxScoreL ql (p :: rest) = maxScoreL ql rest := by
          rw [maxScoreL_cons]; omega
        have hMpos : 0 < maxScoreL ql rest := by omega
        obtain ⟨p2, hmem, hscore⟩ := maxScoreL_attained ql rest hMpos
        have hfind : (rest.find? (fun p3 => decide (maxScoreL ql rest ≤ scoreAgent ql p3.2))).isSome = true := by
          rw [List.find?_isSome]
          exact ⟨p2, hmem, by simpa using hscore⟩
        obtain ⟨p3, hf⟩ := Option.isSome_iff_exists.mp hfind
        have hMs : ¬ maxScoreL ql (p :: rest) ≤ s := by omega
        rw [if_neg h2, if_neg hMs, hM]
        rw [List.find?_cons_of_neg _ (by simp; omega)]
        rw [hf]
    · have hs2 : scoreAgent ql p.2 ≤ s := by omega
      rw [if_neg h, ih]
      by_cases h2 : maxScoreL ql (p :: rest) ≤ s
      · have hMR : maxScoreL ql rest ≤ s := by rw [maxScoreL_cons] at h2; omega
        rw [if_pos h2, if_pos hMR]
      · have hMR : ¬ maxScoreL ql rest ≤ s := by rw [maxScoreL_cons] at h2; omega
        have hM : maxScoreL ql (p :: rest) = maxScoreL ql rest := by
          rw [maxScoreL_cons]; omega
        rw [if_neg h2, if_neg hMR, hM]
        rw [List.find?_cons_of_neg _ (by simp; omega)]

lemma bestAux_mem (ql : List Char) (l : List (String × AgentInfo)) :
    ∀ b s k, (bestAux ql l (b, s)).1 = some k → b = some k ∨ ∃ p ∈ l, p.1 = k := by
  induction l with
  | nil => intro b s k h; exact .inl h
  | cons p rest ih =>
    intro b s k h
    simp only [bestAux] at h
    by_cases hc : scoreAgent ql p.2 > s
    · rw [if_pos hc] at h
      rcases ih _ _ _ h with h2 | ⟨p2, hm, he⟩
      · injection h2 with h3
        exact .inr ⟨p, List.mem_cons_self _ _, h3⟩
      · exact .inr ⟨p2, List.mem_cons_of_mem _ hm, he⟩
    · rw [if_neg hc] at h
      rcases ih _ _ _ h with h2 | ⟨p2, hm, he⟩
      · exact .inl h2
      · exact .inr ⟨p2, List.mem_cons_of_mem _ hm, he⟩

lemma registry_keys_nonempty : ∀ p ∈ AGENT_DESCRIPTIONS, p.1.isEmpty = false := by decide

lemma fallback_spec (q : String) : fallback_intent q = specFallback q := by
  have h1 := bestAux_fst (toLowerL q.data) AGENT_DESCRIPTIONS none 0
  have h2 := bestAux_snd (toLowerL q.data) AGENT_DESCRIPTIONS none 0
  rcases hb : bestAux (toLowerL q.data) AGENT_DESCRIPTIONS (none, 0) with ⟨bm, bs⟩
  rw [hb] at h1 h2
  simp only at h1 h2
  unfold fallback_intent specFallback
  rw [hb]
  by_cases hM : maxScoreL (toLowerL q.data) AGENT_DESCRIPTIONS = 0
  · rw [if_pos hM]
    rw [hM] at h1
    simp only [Nat.le_refl, if_true] at h1
    subst h1
    rfl
  · have hMpos : 0 < maxScoreL (toLowerL q.data) AGENT_DESCRIPTIONS := Nat.pos_of_ne_zero hM
    rw [if_neg hM]
    have hMs : ¬ maxScoreL (toLowerL q.data) AGENT_DESCRIPTIONS ≤ 0 := by omega
    rw [if_neg hMs] at h1
    obtain ⟨p2, hmem, hscore⟩ := maxScoreL_attained (toLowerL q.data) AGENT_DESCRIPTIONS hMpos
    have hfind : (AGENT_DESCRIPTIONS.find?
        (fun p => decide (maxScoreL (toLowerL q.data) AGENT_DESCRIPTIONS ≤ scoreAgent (toLowerL q.data) p.2))).isSome = true := by
      rw [List.find?_isSome]
      exact ⟨p2, hmem, by simpa using hscore⟩
    obtain ⟨p3, hf⟩ := Option.isSome_iff_exists.mp hfind
    rw [hf] at h1 ⊢
    subst h1
    have hne : p3.1.isEmpty = false :=
      registry_keys_nonempty p3 (List.mem_of_find?_eq_some hf)
    have hbs : bs = maxScoreL (toLowerL q.data) AGENT_DESCRIPTIONS := by omega
    subst hbs
    simp [hne, hMpos]

/-- C7: for every query, the fallback computation scores each registry
agent by the number of its keywords occurring as literal substrings of
the lower-cased query, selects the agent with the strictly highest
score (the first agent in registry iteration order wins ties, i.e. the
first agent attaining the maximum score), and returns it with
confidence `min(0.7, score * 0.2)`; if the best score is 0 it returns
"gemini-wrapper" with confidence 0.3 — both branches with the specified
reasoning strings and empty/false remaining fields (these are spelled
out in `matchedJson`, `genericJson` and `specFallback`). -/
theorem fallback_intent_spec_correct (q : String) : fallback_intent q = specFallback q :=
  fallback_spec q

/-! ### Agent id and confidence of the fallback result -/

lemma fallback_agent_key (q : String) :
    ∃ k, getField (fallback_intent q) "agent_id" = Json.str k ∧ k ∈ registryKeys := by
  rcases hb : bestAux (toLowerL q.data) AGENT_DESCRIPTIONS (none, 0) with ⟨bm, s⟩
  unfold fallback_intent
  rw [hb]
  cases bm with
  | none => exact ⟨"gemini-wrapper", rfl, by decide⟩
  | some k =>
    cases hcond : (!k.isEmpty && decide (0 < s)) with
    | false =>
      simp only [hcond, Bool.false_eq_true, if_false]
      exact ⟨"gemini-wrapper", rfl, by decide⟩
    | true =>
      simp only [hcond, if_true]
      refine ⟨k, rfl, ?_⟩
      have h := bestAux_mem (toLowerL q.data) AGENT_DESCRIPTIONS none 0 k (by rw [hb])
      rcases h with h2 | ⟨p, hm, he⟩
      · exact Option.noConfusion h2
      · subst he
        exact List.mem_map_of_mem _ hm

lemma fallback_conf (q : String) :
    ∃ x, getField (fallback_intent q) "confidence" = Json.num x ∧ 0 ≤ x ∧ x ≤ 1 := by
  rcases hb : bestAux (toLowerL q.data) AGENT_DESCRIPTIONS (none, 0) with ⟨bm, s⟩
  unfold fallback_intent
  rw [hb]
  cases bm with
  | none => exact ⟨3/10, rfl, by norm_num, by norm_num⟩
  | some k =>
    cases hcond : (!k.isEmpty && decide (0 < s)) with
    | false =>
      simp only [hcond, Bool.false_eq_true, if_false]
      exact ⟨3/10, rfl, by norm_num, by norm_num⟩
    | true =>
      simp only [hcond, if_true]
      refine ⟨pyMin (7/10) ((s : Rat) * (2/10)), rfl, ?_, ?_⟩
      · unfold pyMin
        split
        · positivity
        · norm_num
      · unfold pyMin
        split
        · next h => linarith
        · norm_num

/-- C1: for every query and every behaviour of the LLM call (success,
malformed response, raised exception), `identify_intent` never raises
to the caller: it always returns a result dictionary, and on every
failure path of the `try` body it degrades to the fallback
computation. -/
theorem identify_intent_never_raises (q : String) (b : LLMBehaviour) :
    (∃ kvs, identify_intent q b = Json.obj kvs) ∧
    (∀ e, identifyIntentTry b = .error e → identify_intent q b = fallback_intent q) := by
  constructor
  · rcases identify_intent_cases q b with h | ⟨s, kvs, _, _, ⟨_, he⟩ | ⟨_, he⟩⟩
    · rw [h]
      exact fallback_intent_obj q
    · exact ⟨kvs, he⟩
    · exact ⟨_, he⟩
  · intro e h
    simp [identify_intent, h]

/-- Witness for C1: a raising LLM call yields the fallback result. -/
theorem identify_intent_never_raises_witness :
    identify_intent "hello" LLMBehaviour.raises = fallback_intent "hello" :=
  (identify_intent_never_raises "hello" LLMBehaviour.raises).2 PyExn.other rfl

/-- C2: for every query and every LLM behaviour, the `agent_id` field
of the result of `identify_intent` is a key of the registry
`AGENT_DESCRIPTIONS` (an unknown id is replaced by "gemini-wrapper",
and both fallback branches return registry keys). -/
theorem identify_intent_agent_id_in_registry (q : String) (b : LLMBehaviour) :
    ∃ k, getField (identify_intent q b) "agent_id" = Json.str k ∧ k ∈ registryKeys := by
  rcases identify_intent_cases q b with h | ⟨s, kvs, _hb, _hp, h2⟩
  · rw [h]
    exact fallback_agent_key q
  · rcases h2 with ⟨hr, he⟩ | ⟨hr, he⟩
    · obtain ⟨k, hk, hmem⟩ := registryMember_str _ hr
      rw [he]
      refine ⟨k, ?_, hmem⟩
      show objGet kvs "agent_id" = Json.str k
      exact hk
    · rw [he]
      refine ⟨"gemini-wrapper", ?_, by decide⟩
      show objGet (setKey (setKey kvs "agent_id" (.str "gemini-wrapper")) "confidence" (.num (5/10))) "agent_id"
        = Json.str "gemini-wrapper"
      rw [objGet_setKey_other _ _ _ _ (by decide), objGet_setKey_self]

/-- C3 (amended): the confidence of the result of `identify_intent`
lies in [0, 1] on every path except the pass-through of a valid
response with a known `agent_id`; on that path the LLM-supplied object
is returned verbatim and its confidence value is not validated. -/
theorem identify_intent_confidence_bounds_amended (q : String) (b : LLMBehaviour) :
    (∃ x, getField (identify_intent q b) "confidence" = Json.num x ∧ 0 ≤ x ∧ x ≤ 1) ∨
    (∃ s kvs, b = .returns s ∧ jsonLoads (cleanResponse s.data) = some (.obj kvs) ∧
      registryMember (objGet kvs "agent_id") = true ∧ identify_intent q b = .obj kvs) := by
  rcases identify_intent_cases q b with h | ⟨s, kvs, hb, hp, h2⟩
  · left
    rw [h]
    exact fallback_conf q
  · rcases h2 with ⟨hr, he⟩ | ⟨hr, he⟩
    · right
      exact ⟨s, kvs, hb, hp, hr, he⟩
    · left
      refine ⟨5/10, ?_, by norm_num, by norm_num⟩
      rw [he]
      show objGet (setKey (setKey kvs "agent_id" (.str "gemini-wrapper")) "confidence" (.num (5/10))) "confidence"
        = Json.num (5/10)
      rw [objGet_setKey_self]

/-- Counterexample to C3 as stated: a valid JSON response with the
known agent id "gemini-wrapper" and confidence 2 is passed through
verbatim, so the returned confidence is 2, outside [0, 1]. -/
theorem identify_intent_confidence_unbounded_cex :
    jsonLoads (cleanResponse "\x7b\"agent_id\": \"gemini-wrapper\", \"confidence\": 2\x7d".data)
      = some (Json.obj [("agent_id", Json.str "gemini-wrapper"), ("confidence", Json.num 2)]) ∧
    ¬ ∃ x : Rat,
      getField (identify_intent "hi"
          (.returns "\x7b\"agent_id\": \"gemini-wrapper\", \"confidence\": 2\x7d")) "confidence"
        = Json.num x ∧ 0 ≤ x ∧ x ≤ 1 := by
  refine ⟨rfl, ?_⟩
  rintro ⟨x, hx, h0, h1⟩
  have he : getField (identify_intent "hi"
      (.returns "\x7b\"agent_id\": \"gemini-wrapper\", \"confidence\": 2\x7d")) "confidence"
      = Json.num 2 := rfl
  rw [he] at hx
  injection hx with h2
  rw [← h2] at h1
  norm_num at h1

/-- C5 (amended): if the LLM response parses as a JSON object whose
`agent_id` is a hashable JSON value (not an array or object) that is
not a key of the registry, `identify_intent` returns that object with
`agent_id` set to "gemini-wrapper" and `confidence` set to exactly 0.5,
and every other field of the parsed object unchanged.  (An unhashable
`agent_id` instead makes the membership test raise `TypeError`, routing
to the keyword fallback.) -/
theorem identify_intent_unknown_agent_corrected_amended (q s : String) (kvs : List (String × Json))
    (hparse : jsonLoads (cleanResponse s.data) = some (Json.obj kvs))
    (hhash : jsonHashable (objGet kvs "agent_id") = true)
    (hunknown : registryMember (objGet kvs "agent_id") = false) :
    identify_intent q (.returns s) =
      Json.obj (setKey (setKey kvs "agent_id" (.str "gemini-wrapper")) "confidence" (.num (5/10))) := by
  simp [identify_intent, identifyIntentTry, hparse, hhash, hunknown]

/-- Witness for the amended C5 at a concrete unknown string agent
id. -/
theorem identify_intent_unknown_agent_corrected_amended_witness :
    identify_intent "hi" (.returns "\x7b\"agent_id\": \"bogus\", \"note\": \"x\"\x7d")
      = Json.obj [("agent_id", Json.str "gemini-wrapper"), ("note", Json.str "x"),
                  ("confidence", Json.num (5/10))] :=
  identify_intent_unknown_agent_corrected_amended "hi" _
    [("agent_id", Json.str "bogus"), ("note", Json.str "x")] rfl rfl rfl

/-- Counterexample to C5 as stated: a parsed object whose `agent_id` is
the JSON array `[]` (not a registry key) is not corrected in place —
the unhashable value makes `agent_id not in AGENT_DESCRIPTIONS` raise
`TypeError`, so the result is the keyword fallback, not the corrected
object. -/
theorem identify_intent_unhashable_agent_cex :
    jsonLoads (cleanResponse "\x7b\"agent_id\": [], \"note\": \"x\"\x7d".data)
      = some (Json.obj [("agent_id", Json.arr []), ("note", Json.str "x")]) ∧
    identify_intent "hello" (.returns "\x7b\"agent_id\": [], \"note\": \"x\"\x7d")
      = fallback_intent "hello" ∧
    identify_intent "hello" (.returns "\x7b\"agent_id\": [], \"note\": \"x\"\x7d")
      ≠ Json.obj (setKey (setKey [("agent_id", Json.arr []), ("note", Json.str "x")]
          "agent_id" (Json.str "gemini-wrapper")) "confidence" (Json.num (5/10))) := by
  refine ⟨rfl, rfl, ?_⟩
  intro h
  exact Json.noConfusion (show Json.null = Json.str "x" from congrArg (fun j => getField j "note") h)

/-! ### Markdown fence stripping (C8) -/

lemma dropWhile_head_false (p : Char → Bool) (l : List Char) (c : Char)
    (h1 : l.head? = some c) (h2 : p c = false) : l.dropWhile p = l := by
  cases l with
  | nil => cases h1
  | cons a as =>
    rw [List.head?_cons] at h1
    injection h1 with h3
    subst h3
    simp [List.dropWhile_cons, h2]

lemma pyStrip_eq_self (l : List Char) (c d : Char)
    (h1 : l.head? = some c) (h2 : pyWs c = false)
    (h3 : l.reverse.head? = some d) (h4 : pyWs d = false) : pyStrip l = l := by
  unfold pyStrip
  rw [dropWhile_head_false pyWs l c h1 h2]
  rw [dropWhile_head_false pyWs l.reverse d h3 h4]
  exact List.reverse_reverse l

lemma pyStrip_cons_ws (c : Char) (l : List Char) (hc : pyWs c = true) :
    pyStrip (c :: l) = pyStrip l := by
  unfold pyStrip
  rw [List.dropWhile_cons]
  simp [hc]

lemma pyStrip_append_ws (l : List Char) (c : Char) (hc : pyWs c = true) :
    pyStrip (l ++ [c]) = pyStrip l := by
  unfold pyStrip
  rw [List.dropWhile_append]
  by_cases h : (l.dropWhile pyWs).isEmpty = true
  · rw [if_pos h]
    have h2 : List.dropWhile pyWs [c] = [] := by simp [List.dropWhile_cons, hc]
    have h3 : l.dropWhile pyWs = [] := by simpa [List.isEmpty_iff] using h
    rw [h2, h3]
  · rw [if_neg h]
    rw [List.reverse_append]
    simp [List.dropWhile_cons, hc]

lemma isPrefixOf_self_append (p x : List Char) : p.isPrefixOf (p ++ x) = true := by
  induction p with
  | nil => simp [List.isPrefixOf]
  | cons a as ih => simp [List.isPrefixOf, ih]

lemma cleanResponse_braced (t : List Char)
    (hh : (pyStrip t).head? = some '\x7b')
    (hl : (pyStrip t).getLast? = some '\x7d') :
    cleanResponse t = pyStrip t := by
  have hrev : (pyStrip t).reverse.head? = some '\x7d' := by
    rw [List.head?_reverse]; exact hl
  have hself : pyStrip (pyStrip t) = pyStrip t :=
    pyStrip_eq_self _ _ _ hh (by decide) hrev (by decide)
  obtain ⟨cs, hcons⟩ : ∃ cs, pyStrip t = '\x7b' :: cs := by
    cases hcase : pyStrip t with
    | nil => rw [hcase] at hh; cases hh
    | cons c cs =>
      rw [hcase, List.head?_cons] at hh
      injection hh with h3
      exact ⟨cs, by rw [h3]⟩
  obtain ⟨ds, hrcons⟩ : ∃ ds, (pyStrip t).reverse = '\x7d' :: ds := by
    cases hcase : (pyStrip t).reverse with
    | nil => rw [hcase] at hrev; cases hrev
    | cons d ds =>
      rw [hcase, List.head?_cons] at hrev
      injection hrev with h3
      exact ⟨ds, by rw [h3]⟩
  have hpre : ("\x60\x60\x60json".data).isPrefixOf (pyStrip t) = false := by
    rw [hcons]; rfl
  have hsuf : ("\x60\x60\x60".data).isSuffixOf (pyStrip t) = false := by
    show ("\x60\x60\x60".data).reverse.isPrefixOf (pyStrip t).reverse = false
    rw [hrcons]; rfl
  simp only [cleanResponse, hpre, hsuf, Bool.false_eq_true, if_false]
  exact hself

lemma cleanResponse_wrapFence (t : List Char)
    (hh : (pyStrip t).head? = some '\x7b')
    (hl : (pyStrip t).getLast? = some '\x7d') :
    cleanResponse (wrapFence t) = cleanResponse t := by
  have hwhead : (wrapFence t).head? = some '\x60' := rfl
  have hwrev : (wrapFence t).reverse.head? = some '\x60' := by
    unfold wrapFence
    rw [List.reverse_append, List.reverse_append]
    rfl
  have hwself : pyStrip (wrapFence t) = wrapFence t :=
    pyStrip_eq_self _ _ _ hwhead (by decide) hwrev (by decide)
  have hsplit1 : wrapFence t = "\x60\x60\x60json".data ++ ('\n' :: (t ++ "\n\x60\x60\x60".data)) := rfl
  have hpre : ("\x60\x60\x60json".data).isPrefixOf (wrapFence t) = true := by
    rw [hsplit1]; exact isPrefixOf_self_append _ _
  have hdrop : (wrapFence t).drop 7 = '\n' :: (t ++ "\n\x60\x60\x60".data) := by
    rw [hsplit1]; rfl
  have hrev2 : ('\n' :: (t ++ "\n\x60\x60\x60".data)).reverse
      = "\x60\x60\x60".data.reverse ++ (('\n' :: t.reverse) ++ ['\n']) := by
    simp [List.reverse_append]
  have hsuf : ("\x60\x60\x60".data).isSuffixOf ('\n' :: (t ++ "\n\x60\x60\x60".data)) = true := by
    show ("\x60\x60\x60".data).reverse.isPrefixOf ('\n' :: (t ++ "\n\x60\x60\x60".data)).reverse = true
    rw [hrev2]
    exact isPrefixOf_self_append _ _
  have hsplit2 : '\n' :: (t ++ "\n\x60\x60\x60".data)
      = (('\n' :: t) ++ ['\n']) ++ "\x60\x60\x60".data := by
    simp
  have htake : ('\n' :: (t ++ "\n\x60\x60\x60".data)).take
      (('\n' :: (t ++ "\n\x60\x60\x60".data)).length - 3) = ('\n' :: t) ++ ['\n'] := by
    rw [hsplit2]
    have hlen : ((('\n' :: t) ++ ['\n']) ++ "\x60\x60\x60".data).length - 3
        = (('\n' :: t) ++ ['\n']).length := by
      simp
    rw [hlen, List.take_left]
  have hstrip : pyStrip (('\n' :: t) ++ ['\n']) = pyStrip t := by
    rw [List.cons_append, pyStrip_cons_ws _ _ (by decide), pyStrip_append_ws _ _ (by decide)]
  rw [cleanResponse_braced t hh hl]
  simp only [cleanResponse, hwself, hpre, if_true, hdrop, hsuf, htake]
  exact hstrip

/-- C8: for every JSON-object response text (one whose stripped form is
brace-delimited, as every serialized JSON object is), the
response-handling step applied to the text wrapped in a markdown fence
(leading three backticks plus "json", trailing three backticks, with
surrounding whitespace) parses to the same value as applied to the
unwrapped text, so wrapped and unwrapped responses yield identical
results. -/
theorem fence_wrapped_parses_same (t : List Char) (kvs : List (String × Json))
    (hh : (pyStrip t).head? = some '\x7b')
    (hl : (pyStrip t).getLast? = some '\x7d')
    (hp : jsonLoads (cleanResponse t) = some (Json.obj kvs)) :
    jsonLoads (cleanResponse (wrapFence t)) = some (Json.obj kvs) := by
  rw [cleanResponse_wrapFence t hh hl]
  exact hp

/-- Witness for C8 at a concrete JSON object text. -/
theorem fence_wrapped_parses_same_witness :
    jsonLoads (cleanResponse (wrapFence "\x7b\"agent_id\": \"x\"\x7d".data))
      = some (Json.obj [("agent_id", Json.str "x")]) :=
  fence_wrapped_parses_same "\x7b\"agent_id\": \"x\"\x7d".data
    [("agent_id", Json.str "x")] rfl rfl rfl
